import Mathlib

/-!
Verification of the insights pipeline of `src/ai-service/main.py`.

Shallow embedding conventions:

* Machine floats are idealized as exact rationals `ℚ`; quantities whose
  computation involves a square root (Pearson's denominator, standard
  deviations) are handled through squared comparisons over `ℚ` — which is
  exactly equivalent for the comparisons the source performs — and their
  specification-level statements are phrased over `ℝ` with `Real.sqrt`.
* A cell of a numeric column is `Option ℚ`: `none` models a missing value
  (`NaN` after `pd.DataFrame` construction).
* `DF` models the parsed dataframe restricted to the data the analyzers
  consume: the row count, the numeric-dtype columns (the projection
  `df.select_dtypes(include=[np.number])`), and the names of the remaining
  (non-numeric) columns, which are only used for the summary's column count.
* The per-column `try`/`except`/`continue` loops are modelled by
  `per_column_loop` over steps returning `Option (List β)`: `none` models a
  raised-and-caught exception (the column is dropped), `some rs` a normal
  completion emitting the records `rs`.
* `sklearn.LinearRegression` is ordinary least squares on (index, value);
  its coefficients are exact rationals, embedded directly.  On degenerate
  input (a single row) `lstsq`'s minimum-norm solution gives slope `0`,
  which coincides with `ℚ`'s `x / 0 = 0` convention in the formulas below.
* `Python`'s `list.sort` is a stable comparison sort; it is modelled by
  `List.insertionSort`, which Mathlib proves stable.
* The results of the external library calls that the repository does not
  implement (`KMeans.fit_predict`, `StandardScaler.fit_transform`, and the
  correlation matrix `numeric_df.corr().round(2)`) are passed to the
  embedded functions as parameters; for the correlation matrix the
  parameter is constrained by the predicate `corr_spec`, which says it is
  the pairwise-complete Pearson correlation rounded to two decimals.
-/

namespace DataViz

/-- A numeric-dtype column: its name and its cells (`none` = missing). -/
structure NumCol where
  name : String
  vals : List (Option ℚ)
deriving DecidableEq, Repr

instance : Inhabited NumCol := ⟨⟨"", []⟩⟩

/-- The parsed dataframe, restricted to what the analyzers consume:
`len(df)`, the numeric columns, and the names of the non-numeric columns. -/
structure DF where
  nrows : ℕ
  numCols : List NumCol
  otherCols : List String
deriving DecidableEq, Repr

/-- `series.dropna()`: the present values of a column. -/
def NumCol.clean (c : NumCol) : List ℚ :=
  c.vals.filterMap id

/-- Whether a column has no missing values (sklearn raises on `NaN`s). -/
def NumCol.complete (c : NumCol) : Bool :=
  c.vals.all (·.isSome)

/-- Arithmetic mean (`0` on the empty list, matching `ℚ`'s `x / 0 = 0`). -/
def mean (l : List ℚ) : ℚ :=
  l.sum / l.length

/-- Population variance (`ddof=0`), as used by `scipy.stats.zscore`. -/
def pop_var (l : List ℚ) : ℚ :=
  ((l.map (fun y => (y - mean l) ^ 2)).sum) / l.length

/-- Sample variance (`ddof=1`), the square of pandas' `series.std()`. -/
def sample_var (l : List ℚ) : ℚ :=
  ((l.map (fun y => (y - mean l) ^ 2)).sum) / ((l.length - 1 : ℕ) : ℚ)

/-- pandas `series.median()`: middle of the sorted values, or the average of
the two middle ones. -/
def median (l : List ℚ) : ℚ :=
  let s := l.insertionSort (· ≤ ·)
  let k := l.length
  if k % 2 = 1 then s.getD (k / 2) 0
  else (s.getD (k / 2 - 1) 0 + s.getD (k / 2) 0) / 2

/-- Python's stable `list.sort(key=key, reverse=True)`. -/
def sortOnDesc {α : Type} (key : α → ℚ) (l : List α) : List α :=
  l.insertionSort (fun a b => key b ≤ key a)

/-- The per-column loop of the analyzers: each column's body runs inside
`try`/`except`/`continue`, so a failing column (`step c = none`) is dropped
and the surviving records are concatenated in column order. -/
def per_column_loop {β : Type} (step : NumCol → Option (List β)) (cols : List NumCol) :
    List β :=
  cols.flatMap (fun c => (step c).getD [])

section SortLemmas

variable {α : Type} (key : α → ℚ)

theorem sortOnDesc_perm (l : List α) : (sortOnDesc key l).Perm l :=
  List.perm_insertionSort _ l

theorem mem_sortOnDesc {l : List α} {a : α} : a ∈ sortOnDesc key l ↔ a ∈ l :=
  (sortOnDesc_perm key l).mem_iff

theorem sortOnDesc_sorted (l : List α) :
    (sortOnDesc key l).Pairwise (fun a b => key b ≤ key a) := by
  haveI : IsTotal α (fun a b => key b ≤ key a) := ⟨fun a b => le_total (key b) (key a)⟩
  haveI : IsTrans α (fun a b => key b ≤ key a) := ⟨fun _ _ _ h1 h2 => le_trans h2 h1⟩
  exact List.sorted_insertionSort _ l

/-- Stability of the modelled sort: records whose keys all tie keep their
original relative order, stated via `filter`. -/
theorem sortOnDesc_filter (p : α → Bool) (l : List α)
    (hp : ∀ a b, p a = true → p b = true → key b ≤ key a) :
    (sortOnDesc key l).filter p = l.filter p := by
  have hpair : (l.filter p).Pairwise (fun a b => key b ≤ key a) :=
    List.pairwise_of_forall_mem_list (fun a ha b hb =>
      hp a b (List.of_mem_filter ha) (List.of_mem_filter hb))
  have hsub : (l.filter p).Sublist (sortOnDesc key l) :=
    List.sublist_insertionSort hpair (List.filter_sublist l)
  have hsub2 : ((l.filter p).filter p).Sublist ((sortOnDesc key l).filter p) :=
    List.Sublist.filter p hsub
  rw [List.filter_filter] at hsub2
  simp only [Bool.and_self] at hsub2
  have hperm : ((sortOnDesc key l).filter p).Perm (l.filter p) :=
    (sortOnDesc_perm key l).filter p
  exact (List.Sublist.eq_of_length hsub2 hperm.length_eq.symm).symm

end SortLemmas

/-!  ## The analyzers  -/

/-- A record of `get_correlations` (the presentation-only `description`
string, which no claim mentions, is omitted). -/
structure CorrRec where
  feature1 : String
  feature2 : String
  score : ℚ
deriving DecidableEq, Repr

/-- The index pairs enumerated by
`for i in range(n): for j in range(i+1, n)` (same elements, same order). -/
def pairs_upto (n : ℕ) : List (ℕ × ℕ) :=
  (List.range n).flatMap (fun i => ((List.range n).filter (fun j => i < j)).map (fun j => (i, j)))

/-- Name of numeric column `i` (`corr_matrix.columns[i]`). -/
def col_name (df : DF) (i : ℕ) : String :=
  (df.numCols.getD i default).name

/-- `get_correlations`, parametrized by the rounded correlation matrix
`corr` (the result of the library call `numeric_df.corr().round(2)`,
constrained by `corr_spec` below): keep the pairs with `|r| > 0.3` and sort
by descending absolute score. -/
def get_correlations (df : DF) (corr : ℕ → ℕ → ℚ) : List CorrRec :=
  if df.numCols.length < 2 then []
  else
    sortOnDesc (fun r => |r.score|)
      ((pairs_upto df.numCols.length).filterMap (fun p =>
        if 3/10 < |corr p.1 p.2| then
          some ⟨col_name df p.1, col_name df p.2, corr p.1 p.2⟩
        else none))

/-- A record of `get_trend_analysis` (the `description` string and the
sampled `data` curve, which no claim mentions, are omitted). -/
structure TrendRec where
  feature : String
  direction : String
  magnitude : ℚ
deriving DecidableEq, Repr

/-- The OLS fit of value against row index computed inside
`get_trend_analysis` (`LinearRegression().fit(arange(n), ys)`): returns
`(slope, intercept)`. -/
def trend_fit (n : ℕ) (ys : List ℚ) : ℚ × ℚ :=
  let xs : List ℚ := (List.range n).map (fun i => (i : ℚ))
  let xb := mean xs
  let yb := mean ys
  let sxx := (xs.map (fun x => (x - xb) ^ 2)).sum
  let sxy := ((xs.zip ys).map (fun p => (p.1 - xb) * (p.2 - yb))).sum
  (sxy / sxx, yb - sxy / sxx * xb)

/-- `percent_change` of `get_trend_analysis`: relative change between the
model's prediction at index `0` and at index `n - 1`, with the `1e-10`
guard on the predicted start value. -/
def trend_percent_change (n : ℕ) (ys : List ℚ) : ℚ :=
  if 1/10 ^ 10 < |(trend_fit n ys).2| then
    100 * ((trend_fit n ys).2 + (trend_fit n ys).1 * ((n : ℚ) - 1) - (trend_fit n ys).2) /
      |(trend_fit n ys).2|
  else 0

/-- The direction label of `get_trend_analysis`. -/
def trend_direction (n : ℕ) (ys : List ℚ) : String :=
  if 1/100 < (trend_fit n ys).1 then "up"
  else if (trend_fit n ys).1 < -(1/100) then "down"
  else "stable"

/-- One iteration of `get_trend_analysis`'s column loop.  `none` models the
caught per-column exception: sklearn's `fit` raises on an empty design
matrix (`n = 0`) and on missing values. -/
def trend_step (n : ℕ) (c : NumCol) : Option (List TrendRec) :=
  if n = 0 ∨ ¬ c.complete then none
  else
    let ys := c.clean
    some [⟨c.name, trend_direction n ys, |trend_percent_change n ys|⟩]

/-- `get_trend_analysis`: per-column OLS trends, sorted by descending
magnitude. -/
def get_trend_analysis (df : DF) : List TrendRec :=
  if df.numCols.length < 1 then []
  else sortOnDesc (fun r => r.magnitude) (per_column_loop (trend_step df.nrows) df.numCols)

/-- A record of `detect_anomalies` (the `description` string, which no
claim mentions, is omitted). -/
structure AnomRec where
  feature : String
  value : ℚ
  expected : ℚ
  severity : String
  index : ℕ
deriving DecidableEq, Repr

/-- `severity_rank = {"high": 3, "medium": 2, "low": 1}.get(s, 0)`. -/
def severity_rank (s : String) : ℕ :=
  if s = "high" then 3 else if s = "medium" then 2 else if s = "low" then 1 else 0

/-- One iteration of `detect_anomalies`'s column loop.  `scipy.stats.zscore`
uses the population standard deviation `σ = √pop_var`; the source's
comparisons `|z| > 3`, `z > 5`, `z > 4` are embedded by the exactly
equivalent squared comparisons `(y - μ)² > 9·σ²` etc. (for `σ = 0` the
source's z-scores are `NaN`, every comparison is false and nothing is
flagged, which also coincides with the squared form, as then every
`y = μ`).  A column with missing values yields all-`NaN` z-scores, hence no
flagged rows. -/
def anomaly_step (c : NumCol) : Option (List AnomRec) :=
  if ¬ c.complete then some []
  else
    let ys := c.clean
    let μ := mean ys
    let v := pop_var ys
    some (ys.enum.filterMap (fun p =>
      if 9 * v < (p.2 - μ) ^ 2 then
        some ⟨c.name, p.2, μ,
          if 25 * v < (p.2 - μ) ^ 2 then "high"
          else if 16 * v < (p.2 - μ) ^ 2 then "medium"
          else "low", p.1⟩
      else none))

/-- The anomaly records in discovery order (column by column, row by row). -/
def anomalies_raw (df : DF) : List AnomRec :=
  per_column_loop anomaly_step df.numCols

/-- `detect_anomalies`: z-score outliers, sorted by descending severity
rank (stable). -/
def detect_anomalies (df : DF) : List AnomRec :=
  if df.numCols.length < 1 ∨ df.nrows < 10 then []
  else sortOnDesc (fun r => (severity_rank r.severity : ℚ)) (anomalies_raw df)

/-- A record of `make_predictions` (the `timeline` list and the
`description` string, which no claim mentions, are omitted). -/
structure PredRec where
  feature : String
  current : ℚ
  predicted : ℚ
  confidence : ℚ
deriving DecidableEq, Repr

/-- The OLS fit computed inside `make_predictions` — the source duplicates
the fitting code of `get_trend_analysis` verbatim, so this definition
repeats `trend_fit`'s body. -/
def pred_fit (n : ℕ) (ys : List ℚ) : ℚ × ℚ :=
  let xs : List ℚ := (List.range n).map (fun i => (i : ℚ))
  let xb := mean xs
  let yb := mean ys
  let sxx := (xs.map (fun x => (x - xb) ^ 2)).sum
  let sxy := ((xs.zip ys).map (fun p => (p.1 - xb) * (p.2 - yb))).sum
  (sxy / sxx, yb - sxy / sxx * xb)

/-- `ss_total = np.sum((y - np.mean(y)) ** 2)`. -/
def ss_total (ys : List ℚ) : ℚ :=
  (ys.map (fun y => (y - mean ys) ^ 2)).sum

/-- `ss_residual = np.sum((y - y_pred) ** 2)` for the fitted model. -/
def ss_residual (n : ℕ) (ys : List ℚ) : ℚ :=
  let m := pred_fit n ys
  (ys.enum.map (fun p => (p.2 - (m.2 + m.1 * (p.1 : ℚ))) ^ 2)).sum

/-- `r_squared = 1 - ss_residual / ss_total if ss_total > 0 else 0`. -/
def r_squared (n : ℕ) (ys : List ℚ) : ℚ :=
  if 0 < ss_total ys then 1 - ss_residual n ys / ss_total ys else 0

/-- One iteration of `make_predictions`'s column loop; `none` models the
caught per-column exception (`fit` raises on `n = 0` or missing values). -/
def pred_step (n : ℕ) (c : NumCol) : Option (List PredRec) :=
  if n = 0 ∨ ¬ c.complete then none
  else
    let ys := c.clean
    let m := pred_fit n ys
    some [⟨c.name, ys.getLast?.getD 0, m.2 + m.1 * (n : ℚ),
      max 0 (min 1 (r_squared n ys))⟩]

/-- `make_predictions`: per-column next-index forecasts, sorted by
descending confidence. -/
def make_predictions (df : DF) : List PredRec :=
  if df.numCols.length < 1 ∨ df.nrows < 10 then []
  else sortOnDesc (fun r => r.confidence) (per_column_loop (pred_step df.nrows) df.numCols)

/-- A record of `get_statistics`.  `stdDevSq` holds the square of the
emitted `stdDev` (pandas `series.std()` is `√sample_var`), keeping the
definition inside `ℚ`. -/
structure StatRec where
  feature : String
  mean : ℚ
  median : ℚ
  min : ℚ
  max : ℚ
  stdDevSq : ℚ
deriving DecidableEq, Repr

/-- One iteration of `get_statistics`'s column loop: drop missing values,
skip the column if nothing remains (`if len(series) > 0`). -/
def stat_step (c : NumCol) : Option (List StatRec) :=
  let s := c.clean
  if s.length > 0 then
    some [⟨c.name, mean s, median s, (s.min?).getD 0, (s.max?).getD 0, sample_var s⟩]
  else some []

/-- `get_statistics`: per-column descriptive statistics, no sorting. -/
def get_statistics (df : DF) : List StatRec :=
  if df.numCols.length < 1 then []
  else per_column_loop stat_step df.numCols

/-- Per-feature mean of the standardized data (`np.mean(scaled_data,
axis=0)` at feature `k`). -/
def col_mean_at (scaled : List (List ℚ)) (k : ℕ) : ℚ :=
  ((scaled.map (fun row => row.getD k 0)).sum) / scaled.length

/-- A record of `get_clustering_info` (the `description` string, which no
claim mentions, is omitted). -/
structure ClusterRec where
  id : ℕ
  size : ℕ
  features : List (String × ℚ)
deriving DecidableEq, Repr

/-- The per-feature distances of cluster `i`'s centroid from the global
centroid (`np.abs(cluster_centers[i] - global_mean)`). -/
def cluster_distances (scaled : List (List ℚ)) (centers : List (List ℚ)) (i : ℕ) :
    List ℚ :=
  (centers.getD i []).enum.map (fun p => |p.2 - col_mean_at scaled p.1|)

/-- The record of cluster `i`: 1-based id, member count (`np.bincount`),
and per-feature importances — the distances normalized to sum to `1`, or a
uniform split when they all vanish. -/
def cluster_record (df : DF) (scaled : List (List ℚ)) (centers : List (List ℚ))
    (labels : List ℕ) (i : ℕ) : ClusterRec :=
  let distances := cluster_distances scaled centers i
  let fimp :=
    if 0 < distances.sum then distances.map (fun d => d / distances.sum)
    else distances.map (fun _ => 1 / (distances.length : ℚ))
  ⟨i + 1, labels.count i, (df.numCols.map (·.name)).zip fimp⟩

/-- `get_clustering_info`, parametrized by the results of the external
library calls the repository does not implement: `scaled` is
`StandardScaler().fit_transform(numeric_df)` (row-major), `centers` is
`kmeans.cluster_centers_` and `labels` is `kmeans.fit_predict(...)`.  One
record per cluster (`for i in range(len(cluster_centers))`). -/
def get_clustering_info (df : DF) (scaled : List (List ℚ)) (centers : List (List ℚ))
    (labels : List ℕ) : List ClusterRec :=
  if df.numCols.length < 2 then []
  else if df.nrows < 10 then []
  else (List.range centers.length).map (cluster_record df scaled centers labels)

/-!  ## Pearson specification (over `ℝ`, for the rounded matrix parameter) -/

/-- Pairwise-complete observations of two columns, as pandas' `corr` uses:
rows where both cells are present. -/
def pair_obs (xs ys : List (Option ℚ)) : List (ℚ × ℚ) :=
  (xs.zip ys).filterMap (fun p =>
    match p with
    | (some a, some b) => some (a, b)
    | _ => none)

/-- Pearson correlation of paired observations, as a real number
(`Σᵢ(xᵢ-x̄)(yᵢ-ȳ) / √(Σᵢ(xᵢ-x̄)²·Σᵢ(yᵢ-ȳ)²)`). -/
noncomputable def pearson (ps : List (ℚ × ℚ)) : ℝ :=
  let mx := mean (ps.map Prod.fst)
  let my := mean (ps.map Prod.snd)
  let sxy := ((ps.map (fun p => (p.1 - mx) * (p.2 - my))).sum : ℚ)
  let sxx := ((ps.map (fun p => (p.1 - mx) ^ 2)).sum : ℚ)
  let syy := ((ps.map (fun p => (p.2 - my) ^ 2)).sum : ℚ)
  (sxy : ℝ) / Real.sqrt ((sxx : ℝ) * (syy : ℝ))

/-- `q` is `r` rounded to two decimals: a multiple of `1/100` within half a
unit in the last place of `r` (tie-breaking left open, as it is a
floating-point artifact). -/
def round2_of (q : ℚ) (r : ℝ) : Prop :=
  (∃ k : ℤ, q = (k : ℚ) / 100) ∧ |(q : ℝ) - r| ≤ 1/200

/-- The matrix parameter of `get_correlations` is
`numeric_df.corr().round(2)`: entrywise the rounded pairwise-complete
Pearson correlation. -/
def corr_spec (df : DF) (corr : ℕ → ℕ → ℚ) : Prop :=
  ∀ i j, i < df.numCols.length → j < df.numCols.length →
    round2_of (corr i j)
      (pearson (pair_obs (df.numCols.getD i default).vals (df.numCols.getD j default).vals))

/-!  ## Top-level composition (`analyze_data`) -/

/-- The response bundle of `POST /api/insights`. -/
structure EnhancedInsightsResponse where
  summary : String
  correlations : List CorrRec
  trends : List TrendRec
  anomalies : List AnomRec
  predictions : List PredRec
  clusters : List ClusterRec
  statistics : List StatRec
deriving DecidableEq, Repr

/-- The successful body of `analyze_data`: run the six analyzers and build
the summary text. -/
def build_response (corr : ℕ → ℕ → ℚ) (scaled centers : List (List ℚ)) (labels : List ℕ)
    (df : DF) : EnhancedInsightsResponse :=
  let correlations := get_correlations df corr
  let trends := get_trend_analysis df
  let anomalies := detect_anomalies df
  let predictions := make_predictions df
  let clusters := get_clustering_info df scaled centers labels
  let statistics := get_statistics df
  let nr := df.nrows
  let nc := df.numCols.length + df.otherCols.length
  let ncorr := correlations.length
  let nanom := anomalies.length
  let ntr := trends.length
  let base := s!"Dataset has {nr} rows and {nc} columns. " ++
    "Analysis includes correlations, trends, anomalies, and predictions."
  let s1 := if correlations.isEmpty then "" else s!" Found {ncorr} significant correlations."
  let s2 := if anomalies.isEmpty then "" else s!" Detected {nanom} potential anomalies."
  let s3 := if trends.isEmpty then "" else s!" Identified {ntr} trends in the data."
  ⟨base ++ s1 ++ s2 ++ s3, correlations, trends, anomalies, predictions, clusters, statistics⟩

/-- `analyze_data`'s outer `try`/`except`: `parsed` is the outcome of
dataset parsing and composition (`.error msg` models an uncaught exception
carrying message `msg`); a failure becomes an HTTP 500 with a
human-readable detail string and no partial results. -/
def analyze_data (corr : ℕ → ℕ → ℚ) (scaled centers : List (List ℚ)) (labels : List ℕ)
    (parsed : Except String DF) : Except (ℕ × String) EnhancedInsightsResponse :=
  match parsed with
  | .error msg => .error (500, "Error analyzing data: " ++ msg)
  | .ok df => .ok (build_response corr scaled centers labels df)

/-!  ## Concrete datasets used by the examples and witnesses  -/

/-- A 3-row dataset with one numeric column. -/
def df3 : DF := ⟨3, [⟨"x", [some 1, some 2, some 3]⟩], []⟩

/-- The spec's anomaly example: 11 rows, column `y` constant `5` except the
value `500` at row index 5. -/
def df7 : DF :=
  ⟨11, [⟨"y", [some 5, some 5, some 5, some 5, some 5, some 500,
               some 5, some 5, some 5, some 5, some 5]⟩], []⟩

/-- The spec's trend/statistics example: 12 rows, `x = [1, 2, ..., 12]`. -/
def dfX : DF :=
  ⟨12, [⟨"x", [some 1, some 2, some 3, some 4, some 5, some 6, some 7, some 8,
               some 9, some 10, some 11, some 12]⟩], []⟩

/-- A perfectly linear 10-row column. -/
def colX : NumCol :=
  ⟨"x", [some 1, some 2, some 3, some 4, some 5, some 6, some 7, some 8,
         some 9, some 10]⟩

/-- A perfectly constant 10-row column (zero total variance). -/
def colK : NumCol :=
  ⟨"k", [some 7, some 7, some 7, some 7, some 7, some 7, some 7, some 7,
         some 7, some 7]⟩

/-- A 10-row dataset with a perfectly linear column `x` and a perfectly
constant column `k`. -/
def dfP : DF := ⟨10, [colX, colK], []⟩

/-- A 3-row dataset with two identical (hence perfectly correlated) numeric
columns. -/
def dfW : DF :=
  ⟨3, [⟨"x", [some 1, some 2, some 3]⟩, ⟨"y", [some 1, some 2, some 3]⟩], []⟩

/-- The constant rounded correlation matrix of `dfW` (both columns are
identical, so every pairwise Pearson correlation is exactly `1`). -/
def corr1 : ℕ → ℕ → ℚ := fun _ _ => 1

/-- A 10-row, 2-column dataset for the clustering witness. -/
def dfC : DF :=
  ⟨10, [⟨"a", [some 1, some 1, some 1, some 1, some 1, some 1, some 1, some 1,
               some 1, some 1]⟩,
        ⟨"b", [some 2, some 2, some 2, some 2, some 2, some 2, some 2, some 2,
               some 2, some 2]⟩], []⟩

/-- Example standardized data for the clustering witness (empty, so the
global per-feature means are `0`). -/
def scaled0 : List (List ℚ) := []

/-- Example cluster centroids for the clustering witness. -/
def centers0 : List (List ℚ) := [[1, 0], [0, 1], [1, 1]]

/-- Example cluster labels for the clustering witness. -/
def labels0 : List ℕ := [0, 0, 0, 1, 1, 2, 2, 2, 2, 2]

/-- A column whose processing fails, for the error-handling witness. -/
def badCol : NumCol := ⟨"bad", [none]⟩

/-- A column whose processing succeeds, for the error-handling witness. -/
def goodCol : NumCol := ⟨"good", [some 1]⟩

/-- A per-column step that fails exactly on `badCol`, for the
error-handling witness. -/
def step0 : NumCol → Option (List String) :=
  fun c => if c.name = "bad" then none else some [c.name]

/-!  ## Shared lemmas  -/

theorem mem_per_column_loop {β : Type} {step : NumCol → Option (List β)} {cols : List NumCol}
    {r : β} : r ∈ per_column_loop step cols ↔ ∃ c ∈ cols, r ∈ (step c).getD [] := by
  simp [per_column_loop]

/-- Evaluation of the anomaly analyzer on the spec's example dataset: the
outlier row 5 is flagged with severity `"low"` (its z-score is
`450/√20250 ≈ 3.16`, not above `4` or `5`) and `expected` is the column
mean `50` (the outlier included). -/
theorem detect_anomalies_df7 :
    detect_anomalies df7 = [⟨"y", 500, 50, "low", 5⟩] := by
  norm_num [detect_anomalies, anomalies_raw, per_column_loop, anomaly_step, NumCol.complete,
    NumCol.clean, mean, pop_var, List.enum, List.enumFrom, sortOnDesc, List.insertionSort,
    List.orderedInsert, severity_rank, df7, List.filterMap_cons, List.all_cons, Option.isSome,
    List.flatMap_cons, List.flatMap_nil]

set_option maxHeartbeats 2000000 in
/-- Evaluation of the trend analyzer on the spec's example dataset
`x = [1..12]`: fitted slope `1`, intercept `1`, so direction `"up"` and
magnitude `|100·(12 - 1)/1| = 1100`. -/
theorem get_trend_analysis_dfX :
    get_trend_analysis dfX = [⟨"x", "up", 1100⟩] := by
  have hfit : trend_fit 12 [1, 2, 3, 4, 5, 6, 7, 8, 9, 10, 11, 12] = (1, 1) := by
    norm_num [trend_fit, mean, List.range_succ]
  norm_num [get_trend_analysis, per_column_loop, trend_step, NumCol.complete, NumCol.clean,
    trend_direction, trend_percent_change, hfit, sortOnDesc, List.insertionSort,
    List.orderedInsert, dfX, List.filterMap_cons, List.all_cons, Option.isSome,
    List.flatMap_cons, List.flatMap_nil]

set_option maxHeartbeats 2000000 in
/-- Evaluation of the prediction analyzer on `dfP`: the linear column fits
perfectly (confidence `1`, next value `11`), the constant column has zero
total variance (confidence `0`, next value `7`). -/
theorem make_predictions_dfP :
    make_predictions dfP = [⟨"x", 10, 11, 1⟩, ⟨"k", 7, 7, 0⟩] := by
  have hx : pred_fit 10 [1, 2, 3, 4, 5, 6, 7, 8, 9, 10] = (1, 1) := by
    norm_num [pred_fit, mean, List.range_succ]
  have hk : pred_fit 10 [7, 7, 7, 7, 7, 7, 7, 7, 7, 7] = (0, 7) := by
    norm_num [pred_fit, mean, List.range_succ]
  have hrx : r_squared 10 [1, 2, 3, 4, 5, 6, 7, 8, 9, 10] = 1 := by
    norm_num [r_squared, ss_total, ss_residual, hx, mean, List.enum, List.enumFrom]
  have hrk : r_squared 10 [7, 7, 7, 7, 7, 7, 7, 7, 7, 7] = 0 := by
    norm_num [r_squared, ss_total, ss_residual, hk, mean, List.enum, List.enumFrom]
  norm_num [make_predictions, per_column_loop, pred_step, NumCol.complete, NumCol.clean,
    hx, hk, hrx, hrk, sortOnDesc, List.insertionSort, List.orderedInsert, dfP, colX, colK,
    List.filterMap_cons, List.all_cons, Option.isSome, List.flatMap_cons, List.flatMap_nil]

/-!  ## The claims  -/

/-- C2: for every dataset with fewer than 10 rows the anomaly, prediction
and clustering analyzers return the empty list, and for every dataset with
fewer than 2 numeric columns the clustering analyzer returns the empty
list. -/
theorem claim_C2 (df : DF) (scaled centers : List (List ℚ)) (labels : List ℕ) :
    (df.nrows < 10 →
      detect_anomalies df = [] ∧ make_predictions df = [] ∧
        get_clustering_info df scaled centers labels = []) ∧
    (df.numCols.length < 2 → get_clustering_info df scaled centers labels = []) := by
  constructor
  · intro h
    refine ⟨?_, ?_, ?_⟩
    · simp only [detect_anomalies]
      rw [if_pos (Or.inr h)]
    · simp only [make_predictions]
      rw [if_pos (Or.inr h)]
    · simp only [get_clustering_info]
      split_ifs <;> simp_all
  · intro h
    simp only [get_clustering_info]
    rw [if_pos h]

/-- Witness for C2 at the concrete 3-row dataset `df3`. -/
theorem claim_C2_witness :
    (df3.nrows < 10 ∧
      (detect_anomalies df3 = [] ∧ make_predictions df3 = [] ∧
        get_clustering_info df3 [] [] [] = [])) ∧
    (df3.numCols.length < 2 ∧ get_clustering_info df3 [] [] [] = []) :=
  ⟨⟨by norm_num [df3], (claim_C2 df3 [] [] []).1 (by norm_num [df3])⟩,
   ⟨by norm_num [df3], (claim_C2 df3 [] [] []).2 (by norm_num [df3])⟩⟩

/-- C7 counterexample: on the spec's example dataset (11 rows, `y` constant
`5` except `500` at row 5) the code flags the row with severity `"low"`,
not `"high"`, and `expected` is the column mean `50`, not approximately
`5`. -/
theorem claim_C7_counterexample :
    detect_anomalies df7 = [⟨"y", 500, 50, "low", 5⟩] ∧
    ("low" : String) ≠ "high" ∧ |(50 : ℚ) - 5| = 45 :=
  ⟨detect_anomalies_df7, by decide, by norm_num⟩

/-- C7 (amended): the anomaly analyzer flags exactly the outlier row
(index 5), with severity `"low"` and with `expected` equal to `50`, the
column's mean (which includes the outlier). -/
theorem claim_C7 :
    detect_anomalies df7 = [⟨"y", 500, 50, "low", 5⟩] ∧
    mean ((df7.numCols.getD 0 default).clean) = 50 :=
  ⟨detect_anomalies_df7,
   by norm_num [df7, NumCol.clean, mean, List.filterMap_cons, List.filterMap_nil]⟩

/-- C10: a failure in a single column's body inside a per-column analyzer
loop drops exactly that column's records (the loop still returns), while a
failure during parsing or top-level composition yields a 500 error with a
human-readable message and no partial results; a successful parse yields
the full composed bundle. -/
theorem claim_C10 :
    (∀ (β : Type) (step : NumCol → Option (List β)) (pre post : List NumCol) (c : NumCol),
      step c = none →
        per_column_loop step (pre ++ c :: post) = per_column_loop step (pre ++ post)) ∧
    (∀ (corr : ℕ → ℕ → ℚ) (scaled centers : List (List ℚ)) (labels : List ℕ) (msg : String),
      analyze_data corr scaled centers labels (Except.error msg) =
        Except.error (500, "Error analyzing data: " ++ msg)) ∧
    (∀ (corr : ℕ → ℕ → ℚ) (scaled centers : List (List ℚ)) (labels : List ℕ) (df : DF),
      analyze_data corr scaled centers labels (Except.ok df) =
        Except.ok (build_response corr scaled centers labels df)) := by
  refine ⟨?_, fun _ _ _ _ _ => rfl, fun _ _ _ _ _ => rfl⟩
  intro β step pre post c hc
  simp [per_column_loop, List.flatMap_append, List.flatMap_cons, hc]

/-- Witness for C10: dropping the failing column `badCol` from a concrete
loop. -/
theorem claim_C10_witness :
    step0 badCol = none ∧
    per_column_loop step0 ([goodCol] ++ badCol :: [goodCol]) =
      per_column_loop step0 ([goodCol] ++ [goodCol]) := by
  have h : step0 badCol = none := by decide
  exact ⟨h, claim_C10.1 String step0 [goodCol] [goodCol] badCol h⟩

/-- C9: the prediction analyzer fits exactly the same index-vs-value OLS
model as the trend analyzer (the source duplicates the fitting code), and
each emitted prediction is that model evaluated at index `len(dataset)`. -/
theorem claim_C9 :
    (∀ (n : ℕ) (ys : List ℚ), trend_fit n ys = pred_fit n ys) ∧
    (∀ (df : DF), ∀ r ∈ make_predictions df,
      ∃ c ∈ df.numCols, r.feature = c.name ∧
        pred_fit df.nrows c.clean = trend_fit df.nrows c.clean ∧
        r.predicted =
          (pred_fit df.nrows c.clean).2 + (pred_fit df.nrows c.clean).1 * (df.nrows : ℚ)) := by
  constructor
  · intro n ys; rfl
  · intro df r hr
    simp only [make_predictions] at hr
    split at hr
    · exact absurd hr (List.not_mem_nil r)
    · rw [mem_sortOnDesc, mem_per_column_loop] at hr
      obtain ⟨c, hc, hrc⟩ := hr
      simp only [pred_step] at hrc
      split at hrc
      · simp at hrc
      · simp only [Option.getD_some, List.mem_singleton] at hrc
        subst hrc
        exact ⟨c, hc, rfl, rfl, rfl⟩

/-- Witness for C9 at the concrete dataset `dfP` and its first emitted
prediction record. -/
theorem claim_C9_witness :
    trend_fit 3 [1, 2, 3] = pred_fit 3 [1, 2, 3] ∧
    (∃ c ∈ dfP.numCols, (⟨"x", 10, 11, 1⟩ : PredRec).feature = c.name ∧
      pred_fit dfP.nrows c.clean = trend_fit dfP.nrows c.clean ∧
      (⟨"x", 10, 11, 1⟩ : PredRec).predicted =
        (pred_fit dfP.nrows c.clean).2 + (pred_fit dfP.nrows c.clean).1 * (dfP.nrows : ℚ)) :=
  ⟨claim_C9.1 3 [1, 2, 3],
   claim_C9.2 dfP ⟨"x", 10, 11, 1⟩ (by rw [make_predictions_dfP]; simp)⟩

/-- C4: every emitted prediction confidence lies in `[0, 1]` and is the
training R² clamped to `[0, 1]`; a complete, constant column (zero total
variance) of a dataset with at least 10 rows still yields a record, with
confidence `0` and no division error (`r_squared` is defined as `0`
there). -/
theorem claim_C4 (df : DF) :
    (∀ r ∈ make_predictions df,
      0 ≤ r.confidence ∧ r.confidence ≤ 1 ∧
      ∃ c ∈ df.numCols, r.feature = c.name ∧
        r.confidence = max 0 (min 1 (r_squared df.nrows c.clean)) ∧
        (ss_total c.clean = 0 → r.confidence = 0)) ∧
    (∀ c ∈ df.numCols, 10 ≤ df.nrows → c.complete = true → ss_total c.clean = 0 →
      ∃ r ∈ make_predictions df, r.feature = c.name ∧ r.confidence = 0) := by
  constructor
  · intro r hr
    simp only [make_predictions] at hr
    split at hr
    · exact absurd hr (List.not_mem_nil r)
    · rw [mem_sortOnDesc, mem_per_column_loop] at hr
      obtain ⟨c, hc, hrc⟩ := hr
      simp only [pred_step] at hrc
      split at hrc
      · simp at hrc
      · simp only [Option.getD_some, List.mem_singleton] at hrc
        subst hrc
        refine ⟨le_max_left _ _, max_le (by norm_num) (min_le_left _ _), c, hc, rfl, rfl, ?_⟩
        intro h0
        simp [r_squared, h0]
  · intro c hc h10 hcomp h0
    have hlen : 0 < df.numCols.length := List.length_pos.mpr (List.ne_nil_of_mem hc)
    have hg : ¬(df.numCols.length < 1 ∨ df.nrows < 10) := by omega
    have hstep : pred_step df.nrows c =
        some [⟨c.name, c.clean.getLast?.getD 0,
          (pred_fit df.nrows c.clean).2 + (pred_fit df.nrows c.clean).1 * (df.nrows : ℚ),
          max 0 (min 1 (r_squared df.nrows c.clean))⟩] := by
      simp only [pred_step]
      rw [if_neg]
      push_neg
      exact ⟨by omega, by simp [hcomp]⟩
    refine ⟨⟨c.name, c.clean.getLast?.getD 0,
        (pred_fit df.nrows c.clean).2 + (pred_fit df.nrows c.clean).1 * (df.nrows : ℚ),
        max 0 (min 1 (r_squared df.nrows c.clean))⟩, ?_, rfl, ?_⟩
    · simp only [make_predictions]
      rw [if_neg hg, mem_sortOnDesc, mem_per_column_loop]
      exact ⟨c, hc, by rw [hstep]; exact List.mem_singleton_self _⟩
    · show max 0 (min 1 (r_squared df.nrows c.clean)) = 0
      simp [r_squared, h0]

/-- Witness for C4 at `dfP`: the perfect-fit record of column `x` and the
zero-variance constant column `k`. -/
theorem claim_C4_witness :
    (0 ≤ (⟨"x", 10, 11, 1⟩ : PredRec).confidence ∧
      (⟨"x", 10, 11, 1⟩ : PredRec).confidence ≤ 1 ∧
      ∃ c ∈ dfP.numCols, (⟨"x", 10, 11, 1⟩ : PredRec).feature = c.name ∧
        (⟨"x", 10, 11, 1⟩ : PredRec).confidence =
          max 0 (min 1 (r_squared dfP.nrows c.clean)) ∧
        (ss_total c.clean = 0 → (⟨"x", 10, 11, 1⟩ : PredRec).confidence = 0)) ∧
    (colK ∈ dfP.numCols ∧ 10 ≤ dfP.nrows ∧ colK.complete = true ∧ ss_total colK.clean = 0 ∧
      ∃ r ∈ make_predictions dfP, r.feature = colK.name ∧ r.confidence = 0) := by
  have hss : ss_total colK.clean = 0 := by
    norm_num [ss_total, colK, NumCol.clean, mean, List.filterMap_cons, List.filterMap_nil]
  refine ⟨(claim_C4 dfP).1 ⟨"x", 10, 11, 1⟩ (by rw [make_predictions_dfP]; simp),
    by simp [dfP], by norm_num [dfP], by decide, hss, ?_⟩
  exact (claim_C4 dfP).2 colK (by simp [dfP]) (by norm_num [dfP]) (by decide) hss

/-- The per-column loop of `get_statistics` emits exactly one record per
column whose values survive `dropna`, in column order. -/
theorem stats_loop_map (cols : List NumCol) :
    (per_column_loop stat_step cols).map (fun r => r.feature) =
      (cols.filter (fun c => !c.clean.isEmpty)).map (fun c => c.name) := by
  induction cols with
  | nil => rfl
  | cons c cs ih =>
    simp only [per_column_loop, List.flatMap_cons, List.map_append, List.filter_cons] at *
    by_cases h : c.clean.isEmpty
    · have hstep : stat_step c = some [] := by
        have : c.clean.length = 0 := by
          rw [List.isEmpty_iff] at h
          simp [h]
        simp [stat_step, this]
      simp [hstep, h, ih]
    · have hlen : c.clean.length > 0 := by
        rw [Bool.not_eq_true] at h
        exact List.length_pos.mpr (List.isEmpty_eq_false.mp h)
      have hstep : stat_step c = some [⟨c.name, mean c.clean, median c.clean,
          (c.clean.min?).getD 0, (c.clean.max?).getD 0, sample_var c.clean⟩] := by
        simp only [stat_step]
        rw [if_pos hlen]
      simp [hstep, h, ih]

set_option maxHeartbeats 3000000 in
/-- Evaluation of the statistics analyzer on the spec's example dataset
`x = [1..12]`. -/
theorem get_statistics_dfX :
    get_statistics dfX = [⟨"x", 13/2, 13/2, 1, 12, 13⟩] := by
  have h1 : mean [(1:ℚ), 2, 3, 4, 5, 6, 7, 8, 9, 10, 11, 12] = 13/2 := by
    norm_num [mean]
  have h2 : ([(1:ℚ), 2, 3, 4, 5, 6, 7, 8, 9, 10, 11, 12].min?).getD 0 = 1 := by
    norm_num [List.min?]
  have h3 : ([(1:ℚ), 2, 3, 4, 5, 6, 7, 8, 9, 10, 11, 12].max?).getD 0 = 12 := by
    norm_num [List.max?]
  have h4 : median [(1:ℚ), 2, 3, 4, 5, 6, 7, 8, 9, 10, 11, 12] = 13/2 := by
    norm_num [median, List.insertionSort, List.orderedInsert]
  have h5 : sample_var [(1:ℚ), 2, 3, 4, 5, 6, 7, 8, 9, 10, 11, 12] = 13 := by
    norm_num [sample_var, mean]
  norm_num [get_statistics, per_column_loop, stat_step, NumCol.clean, h1, h2, h3, h4, h5, dfX,
    List.filterMap_cons, List.flatMap_cons, List.flatMap_nil]

/-- C8: the statistics analyzer reports, per column and over the
non-missing values only, mean, median, min, max and standard deviation,
skips (without failing) columns left empty by `dropna`, applies no sorting
(one record per surviving column, in column order); on 12 rows with
`x = [1..12]` it reports mean `6.5`, min `1`, max `12`, and the trend
analyzer reports direction `"up"` with positive magnitude. -/
theorem claim_C8 :
    (∀ df : DF,
      (∀ r ∈ get_statistics df, ∃ c ∈ df.numCols,
        r.feature = c.name ∧ c.clean ≠ [] ∧ r.mean = mean c.clean ∧
        r.median = median c.clean ∧ r.min = (c.clean.min?).getD 0 ∧
        r.max = (c.clean.max?).getD 0 ∧ r.stdDevSq = sample_var c.clean) ∧
      (get_statistics df).map (fun r => r.feature) =
        (df.numCols.filter (fun c => !c.clean.isEmpty)).map (fun c => c.name)) ∧
    (get_statistics dfX).map (fun r => (r.mean, r.min, r.max)) = [(13/2, 1, 12)] ∧
    get_trend_analysis dfX = [⟨"x", "up", 1100⟩] ∧
    (∀ r ∈ get_trend_analysis dfX, r.direction = "up" ∧ 0 < r.magnitude) := by
  refine ⟨fun df => ⟨?_, ?_⟩, by rw [get_statistics_dfX]; rfl, get_trend_analysis_dfX, ?_⟩
  · intro r hr
    simp only [get_statistics] at hr
    split at hr
    · exact absurd hr (List.not_mem_nil r)
    · rw [mem_per_column_loop] at hr
      obtain ⟨c, hc, hrc⟩ := hr
      simp only [stat_step] at hrc
      split at hrc
      · simp only [Option.getD_some, List.mem_singleton] at hrc
        subst hrc
        refine ⟨c, hc, rfl, ?_, rfl, rfl, rfl, rfl, rfl⟩
        intro hnil
        simp [hnil] at *
      · simp at hrc
  · simp only [get_statistics]
    split
    · have : df.numCols = [] := by
        rw [← List.length_eq_zero]
        omega
      simp [this]
    · exact stats_loop_map df.numCols
  · rw [get_trend_analysis_dfX]
    intro r hr
    simp only [List.mem_singleton] at hr
    subst hr
    exact ⟨rfl, by norm_num⟩

/-- Witness for C8 at `dfX` and its statistics record. -/
theorem claim_C8_witness :
    (⟨"x", 13/2, 13/2, 1, 12, 13⟩ : StatRec) ∈ get_statistics dfX ∧
    (∃ c ∈ dfX.numCols,
      (⟨"x", 13/2, 13/2, 1, 12, 13⟩ : StatRec).feature = c.name ∧ c.clean ≠ [] ∧
      (⟨"x", 13/2, 13/2, 1, 12, 13⟩ : StatRec).mean = mean c.clean ∧
      (⟨"x", 13/2, 13/2, 1, 12, 13⟩ : StatRec).median = median c.clean ∧
      (⟨"x", 13/2, 13/2, 1, 12, 13⟩ : StatRec).min = (c.clean.min?).getD 0 ∧
      (⟨"x", 13/2, 13/2, 1, 12, 13⟩ : StatRec).max = (c.clean.max?).getD 0 ∧
      (⟨"x", 13/2, 13/2, 1, 12, 13⟩ : StatRec).stdDevSq = sample_var c.clean) := by
  have hm : (⟨"x", 13/2, 13/2, 1, 12, 13⟩ : StatRec) ∈ get_statistics dfX := by
    rw [get_statistics_dfX]
    exact List.mem_singleton_self _
  exact ⟨hm, ((claim_C8.1 dfX).1 _ hm)⟩

/-- The direction label is `"up"` exactly when the fitted slope exceeds
`0.01`, `"down"` exactly when it is below `-0.01`, `"stable"` otherwise. -/
theorem trend_direction_spec (n : ℕ) (ys : List ℚ) :
    (trend_direction n ys = "up" ↔ 1/100 < (trend_fit n ys).1) ∧
    (trend_direction n ys = "down" ↔ (trend_fit n ys).1 < -(1/100)) ∧
    (trend_direction n ys = "stable" ↔
      ¬ 1/100 < (trend_fit n ys).1 ∧ ¬ (trend_fit n ys).1 < -(1/100)) := by
  unfold trend_direction
  split_ifs with h1 h2
  · exact ⟨iff_of_true rfl h1, iff_of_false (by decide) (by intro h; linarith),
      iff_of_false (by decide) (fun hp => hp.1 h1)⟩
  · exact ⟨iff_of_false (by decide) h1, iff_of_true rfl h2,
      iff_of_false (by decide) (fun hp => hp.2 h2)⟩
  · exact ⟨iff_of_false (by decide) h1, iff_of_false (by decide) h2,
      iff_of_true rfl ⟨h1, h2⟩⟩

/-- C3: for every emitted trend record, the direction is `"up"` iff the
fitted slope exceeds `0.01`, `"down"` iff it is below `-0.01`, `"stable"`
otherwise; the magnitude is the absolute percent change between the
model's predicted values at index 0 and at the last index, relative to the
predicted start value, and is `0` when the absolute predicted start value
is at most `1e-10`; the output is sorted by descending magnitude. -/
theorem claim_C3 (df : DF) :
    (∀ r ∈ get_trend_analysis df, ∃ c ∈ df.numCols,
      r.feature = c.name ∧
      (r.direction = "up" ↔ 1/100 < (trend_fit df.nrows c.clean).1) ∧
      (r.direction = "down" ↔ (trend_fit df.nrows c.clean).1 < -(1/100)) ∧
      (r.direction = "stable" ↔
        ¬ 1/100 < (trend_fit df.nrows c.clean).1 ∧
        ¬ (trend_fit df.nrows c.clean).1 < -(1/100)) ∧
      (1/10 ^ 10 < |(trend_fit df.nrows c.clean).2| →
        r.magnitude =
          abs (100 * ((trend_fit df.nrows c.clean).2 +
              (trend_fit df.nrows c.clean).1 * ((df.nrows : ℚ) - 1) -
              (trend_fit df.nrows c.clean).2) / |(trend_fit df.nrows c.clean).2|)) ∧
      (|(trend_fit df.nrows c.clean).2| ≤ 1/10 ^ 10 → r.magnitude = 0)) ∧
    (get_trend_analysis df).Pairwise (fun a b => b.magnitude ≤ a.magnitude) := by
  constructor
  · intro r hr
    simp only [get_trend_analysis] at hr
    split at hr
    · exact absurd hr (List.not_mem_nil r)
    · rw [mem_sortOnDesc, mem_per_column_loop] at hr
      obtain ⟨c, hc, hrc⟩ := hr
      simp only [trend_step] at hrc
      split at hrc
      · simp at hrc
      · simp only [Option.getD_some, List.mem_singleton] at hrc
        subst hrc
        obtain ⟨hup, hdown, hstable⟩ := trend_direction_spec df.nrows c.clean
        refine ⟨c, hc, rfl, hup, hdown, hstable, ?_, ?_⟩
        · intro hps
          show |trend_percent_change df.nrows c.clean| = _
          rw [trend_percent_change, if_pos hps]
        · intro hps
          show |trend_percent_change df.nrows c.clean| = 0
          rw [trend_percent_change, if_neg (not_lt.mpr hps), abs_zero]
  · simp only [get_trend_analysis]
    split
    · exact List.Pairwise.nil
    · exact sortOnDesc_sorted _ _

/-- Witness for C3 at `dfX` and its emitted record. -/
theorem claim_C3_witness :
    (∃ c ∈ dfX.numCols,
      (⟨"x", "up", 1100⟩ : TrendRec).feature = c.name ∧
      ((⟨"x", "up", 1100⟩ : TrendRec).direction = "up" ↔
        1/100 < (trend_fit dfX.nrows c.clean).1) ∧
      ((⟨"x", "up", 1100⟩ : TrendRec).direction = "down" ↔
        (trend_fit dfX.nrows c.clean).1 < -(1/100)) ∧
      ((⟨"x", "up", 1100⟩ : TrendRec).direction = "stable" ↔
        ¬ 1/100 < (trend_fit dfX.nrows c.clean).1 ∧
        ¬ (trend_fit dfX.nrows c.clean).1 < -(1/100)) ∧
      (1/10 ^ 10 < |(trend_fit dfX.nrows c.clean).2| →
        (⟨"x", "up", 1100⟩ : TrendRec).magnitude =
          abs (100 * ((trend_fit dfX.nrows c.clean).2 +
              (trend_fit dfX.nrows c.clean).1 * ((dfX.nrows : ℚ) - 1) -
              (trend_fit dfX.nrows c.clean).2) / |(trend_fit dfX.nrows c.clean).2|)) ∧
      (|(trend_fit dfX.nrows c.clean).2| ≤ 1/10 ^ 10 →
        (⟨"x", "up", 1100⟩ : TrendRec).magnitude = 0)) ∧
    (get_trend_analysis dfX).Pairwise (fun a b => b.magnitude ≤ a.magnitude) :=
  ⟨(claim_C3 dfX).1 ⟨"x", "up", 1100⟩ (by rw [get_trend_analysis_dfX]; simp),
   (claim_C3 dfX).2⟩

theorem pop_var_nonneg (l : List ℚ) : 0 ≤ pop_var l := by
  apply div_nonneg _ (Nat.cast_nonneg _)
  apply List.sum_nonneg
  intro x hx
  obtain ⟨y, _, rfl⟩ := List.mem_map.mp hx
  positivity

/-- C6: every emitted anomaly record deviates from its own column's mean
by strictly more than three population standard deviations, and the output
is the stable descending-severity-rank sort of the records in discovery
order. -/
theorem claim_C6 (df : DF) :
    (∀ r ∈ detect_anomalies df, ∃ c ∈ df.numCols,
      r.feature = c.name ∧
      3 * Real.sqrt (pop_var c.clean) < |(r.value : ℝ) - (mean c.clean : ℝ)|) ∧
    (detect_anomalies df).Pairwise
      (fun a b => severity_rank b.severity ≤ severity_rank a.severity) ∧
    (¬(df.numCols.length < 1 ∨ df.nrows < 10) →
      ∀ s : String,
        (detect_anomalies df).filter (fun r => r.severity == s) =
          (anomalies_raw df).filter (fun r => r.severity == s)) := by
  refine ⟨?_, ?_, ?_⟩
  · intro r hr
    simp only [detect_anomalies] at hr
    split at hr
    · exact absurd hr (List.not_mem_nil r)
    · rw [mem_sortOnDesc] at hr
      rw [anomalies_raw, mem_per_column_loop] at hr
      obtain ⟨c, hc, hrc⟩ := hr
      simp only [anomaly_step] at hrc
      split at hrc
      · simp at hrc
      · simp only [Option.getD_some] at hrc
        rw [List.mem_filterMap] at hrc
        obtain ⟨p, _, hpr⟩ := hrc
        split at hpr
        case isTrue h9 =>
          obtain rfl := Option.some.inj hpr
          refine ⟨c, hc, rfl, ?_⟩
          have hv : (0 : ℝ) ≤ (pop_var c.clean : ℝ) := by
            exact_mod_cast pop_var_nonneg c.clean
          have h9R : (9 : ℝ) * (pop_var c.clean : ℝ) <
              ((p.2 : ℝ) - (mean c.clean : ℝ)) ^ 2 := by
            exact_mod_cast h9
          apply lt_of_pow_lt_pow_left₀ 2 (abs_nonneg _)
          rw [mul_pow, Real.sq_sqrt hv, sq_abs]
          calc (3 : ℝ) ^ 2 * (pop_var c.clean : ℝ)
              = 9 * (pop_var c.clean : ℝ) := by norm_num
            _ < ((p.2 : ℝ) - (mean c.clean : ℝ)) ^ 2 := h9R
        case isFalse => cases hpr
  · simp only [detect_anomalies]
    split
    · exact List.Pairwise.nil
    · have hs := sortOnDesc_sorted (fun r => (severity_rank r.severity : ℚ)) (anomalies_raw df)
      exact List.Pairwise.imp (fun h => by exact_mod_cast h) hs
  · intro hg s
    simp only [detect_anomalies]
    rw [if_neg hg]
    apply sortOnDesc_filter
    intro a b ha hb
    have ha' : a.severity = s := by simpa using ha
    have hb' : b.severity = s := by simpa using hb
    rw [ha', hb']

/-- Witness for C6 at `df7` and its single emitted record. -/
theorem claim_C6_witness :
    (∃ c ∈ df7.numCols,
      (⟨"y", 500, 50, "low", 5⟩ : AnomRec).feature = c.name ∧
      3 * Real.sqrt (pop_var c.clean) <
        |((⟨"y", 500, 50, "low", 5⟩ : AnomRec).value : ℝ) - (mean c.clean : ℝ)|) ∧
    (detect_anomalies df7).Pairwise
      (fun a b => severity_rank b.severity ≤ severity_rank a.severity) ∧
    (detect_anomalies df7).filter (fun r => r.severity == "low") =
      (anomalies_raw df7).filter (fun r => r.severity == "low") :=
  ⟨(claim_C6 df7).1 ⟨"y", 500, 50, "low", 5⟩ (by rw [detect_anomalies_df7]; simp),
   (claim_C6 df7).2.1,
   (claim_C6 df7).2.2 (by norm_num [df7]) "low"⟩

theorem list_sum_map_div (l : List ℚ) (c : ℚ) :
    (l.map (fun d => d / c)).sum = l.sum / c := by
  induction l with
  | nil => simp
  | cons x xs ih => simp [ih, add_div]

/-- Evaluation of the clustering post-processing on concrete library
outputs. -/
theorem get_clustering_info_dfC :
    get_clustering_info dfC scaled0 centers0 labels0 =
      [⟨1, 3, [("a", 1), ("b", 0)]⟩, ⟨2, 2, [("a", 0), ("b", 1)]⟩,
       ⟨3, 5, [("a", 1/2), ("b", 1/2)]⟩] := by
  norm_num [get_clustering_info, cluster_record, cluster_distances, col_mean_at, dfC, scaled0,
    centers0, labels0, List.range_succ, List.enum, List.enumFrom, List.count_cons,
    List.count_nil]

/-- C5: on every dataset where the clustering analyzer emits records, it
emits one record per cluster, with 1-based id and the cluster's member
count; each record's per-feature importances sum to exactly `1` (hence
within `1e-6`) whenever some feature's centroid distance from the global
centroid is non-zero, and are each `1/number-of-features` when all
distances are zero.  The hypothesis `hlen` states that each centroid has
one coordinate per numeric column, which is true of k-means output. -/
theorem claim_C5 (df : DF) (scaled centers : List (List ℚ)) (labels : List ℕ)
    (hlen : ∀ cen ∈ centers, cen.length = df.numCols.length) :
    (∀ r ∈ get_clustering_info df scaled centers labels,
      ∃ i < centers.length, r.id = i + 1 ∧ r.size = labels.count i ∧
        ((∃ d ∈ cluster_distances scaled centers i, d ≠ 0) →
          (r.features.map Prod.snd).sum = 1 ∧
          |(r.features.map Prod.snd).sum - 1| ≤ 1/1000000) ∧
        ((∀ d ∈ cluster_distances scaled centers i, d = 0) →
          ∀ w ∈ r.features.map Prod.snd, w = 1 / (df.numCols.length : ℚ))) ∧
    (¬ df.numCols.length < 2 → ¬ df.nrows < 10 →
      (get_clustering_info df scaled centers labels).length = centers.length) := by
  constructor
  · intro r hr
    simp only [get_clustering_info] at hr
    split at hr
    · exact absurd hr (List.not_mem_nil r)
    · split at hr
      · exact absurd hr (List.not_mem_nil r)
      · rw [List.mem_map] at hr
        obtain ⟨i, hi, hri⟩ := hr
        rw [List.mem_range] at hi
        subst hri
        have hdlen : (cluster_distances scaled centers i).length = df.numCols.length := by
          rw [cluster_distances, List.length_map, List.enum_length,
            List.getD_eq_getElem centers [] hi]
          exact hlen centers[i] (List.getElem_mem hi)
        have hflen : ∀ fimp : List ℚ,
            fimp.length = (cluster_distances scaled centers i).length →
            ((df.numCols.map (fun c => c.name)).zip fimp).map Prod.snd = fimp := by
          intro fimp hf
          exact List.map_snd_zip _ _ (by rw [hf, hdlen, List.length_map])
        refine ⟨i, hi, rfl, rfl, ?_, ?_⟩
        · rintro ⟨d, hd, hdne⟩
          have hd0 : 0 ≤ d := by
            rw [cluster_distances] at hd
            obtain ⟨p, _, rfl⟩ := List.mem_map.mp hd
            exact abs_nonneg _
          have hdpos : 0 < d := hd0.lt_of_ne (Ne.symm hdne)
          have hpos : 0 < (cluster_distances scaled centers i).sum := by
            refine lt_of_lt_of_le hdpos (List.single_le_sum ?_ d hd)
            intro x hx
            rw [cluster_distances] at hx
            obtain ⟨p, _, rfl⟩ := List.mem_map.mp hx
            exact abs_nonneg _
          have hsum : ((cluster_record df scaled centers labels i).features.map
              Prod.snd).sum = 1 := by
            show (((df.numCols.map (fun c => c.name)).zip
              (if 0 < (cluster_distances scaled centers i).sum then
                (cluster_distances scaled centers i).map
                  (fun d => d / (cluster_distances scaled centers i).sum)
              else (cluster_distances scaled centers i).map
                  (fun _ => 1 / ((cluster_distances scaled centers i).length : ℚ)))).map
                Prod.snd).sum = 1
            rw [if_pos hpos, hflen _ (List.length_map _ _), list_sum_map_div,
              div_self (ne_of_gt hpos)]
          exact ⟨hsum, by rw [hsum]; norm_num⟩
        · intro hall
          have hsum0 : (cluster_distances scaled centers i).sum = 0 :=
            List.sum_eq_zero hall
          intro w hw
          have hw' : w ∈ (cluster_distances scaled centers i).map
              (fun _ => 1 / ((cluster_distances scaled centers i).length : ℚ)) := by
            have : (cluster_record df scaled centers labels i).features.map Prod.snd =
                (cluster_distances scaled centers i).map
                  (fun _ => 1 / ((cluster_distances scaled centers i).length : ℚ)) := by
              show (((df.numCols.map (fun c => c.name)).zip
                (if 0 < (cluster_distances scaled centers i).sum then
                  (cluster_distances scaled centers i).map
                    (fun d => d / (cluster_distances scaled centers i).sum)
                else (cluster_distances scaled centers i).map
                    (fun _ => 1 / ((cluster_distances scaled centers i).length : ℚ)))).map
                  Prod.snd) =
                (cluster_distances scaled centers i).map
                  (fun _ => 1 / ((cluster_distances scaled centers i).length : ℚ))
              rw [if_neg (by rw [hsum0]; exact lt_irrefl 0), hflen _ (List.length_map _ _)]
            rwa [this] at hw
          obtain ⟨p, _, rfl⟩ := List.mem_map.mp hw'
          rw [hdlen]
  · intro h2 h10
    simp only [get_clustering_info]
    rw [if_neg h2, if_neg h10, List.length_map, List.length_range]

/-- Witness for C5 at the concrete clustering inputs. -/
theorem claim_C5_witness :
    (∀ cen ∈ centers0, cen.length = dfC.numCols.length) ∧
    (∃ i < centers0.length, (⟨1, 3, [("a", 1), ("b", 0)]⟩ : ClusterRec).id = i + 1 ∧
      (⟨1, 3, [("a", 1), ("b", 0)]⟩ : ClusterRec).size = labels0.count i ∧
      ((∃ d ∈ cluster_distances scaled0 centers0 i, d ≠ 0) →
        ((⟨1, 3, [("a", 1), ("b", 0)]⟩ : ClusterRec).features.map Prod.snd).sum = 1 ∧
        |((⟨1, 3, [("a", 1), ("b", 0)]⟩ : ClusterRec).features.map Prod.snd).sum - 1| ≤
          1/1000000) ∧
      ((∀ d ∈ cluster_distances scaled0 centers0 i, d = 0) →
        ∀ w ∈ (⟨1, 3, [("a", 1), ("b", 0)]⟩ : ClusterRec).features.map Prod.snd,
          w = 1 / (dfC.numCols.length : ℚ))) ∧
    (get_clustering_info dfC scaled0 centers0 labels0).length = centers0.length := by
  have hlen : ∀ cen ∈ centers0, cen.length = dfC.numCols.length := by
    intro cen hc
    fin_cases hc <;> rfl
  refine ⟨hlen, ?_, ?_⟩
  · exact (claim_C5 dfC scaled0 centers0 labels0 hlen).1 ⟨1, 3, [("a", 1), ("b", 0)]⟩
      (by rw [get_clustering_info_dfC]; simp)
  · exact (claim_C5 dfC scaled0 centers0 labels0 hlen).2 (by norm_num [dfC])
      (by norm_num [dfC])

theorem mem_pairs_upto {n : ℕ} {p : ℕ × ℕ} :
    p ∈ pairs_upto n ↔ p.1 < p.2 ∧ p.2 < n := by
  obtain ⟨i, j⟩ := p
  simp only [pairs_upto, List.mem_flatMap, List.mem_map, List.mem_filter, List.mem_range,
    decide_eq_true_eq]
  constructor
  · rintro ⟨a, ha, j', ⟨hj', haj'⟩, heq⟩
    cases heq
    exact ⟨haj', hj'⟩
  · rintro ⟨hij, hjn⟩
    exact ⟨i, lt_trans hij hjn, j, ⟨hjn, hij⟩, rfl⟩

theorem pairs_upto_nodup (n : ℕ) : (pairs_upto n).Nodup := by
  rw [pairs_upto, List.nodup_flatMap]
  constructor
  · intro i _
    apply List.Nodup.map
    · intro a b hab
      simpa using hab
    · exact (List.nodup_range n).filter _
  · refine List.Pairwise.imp ?_ (List.nodup_range n)
    intro a b hab x hxa hxb
    simp only [List.mem_map, List.mem_filter] at hxa hxb
    obtain ⟨j, _, rfl⟩ := hxa
    obtain ⟨k, _, hk⟩ := hxb
    exact hab (congrArg Prod.fst hk).symm

theorem col_name_inj (df : DF) (hnames : (df.numCols.map (fun c => c.name)).Nodup)
    {i j : ℕ} (hi : i < df.numCols.length) (hj : j < df.numCols.length) :
    (col_name df i = col_name df j ↔ i = j) := by
  have hi2 : i < (df.numCols.map (fun c => c.name)).length := by simpa using hi
  have hj2 : j < (df.numCols.map (fun c => c.name)).length := by simpa using hj
  have e1 : col_name df i = (df.numCols.map (fun c => c.name))[i] := by
    rw [col_name, List.getD_eq_getElem _ _ hi, List.getElem_map]
  have e2 : col_name df j = (df.numCols.map (fun c => c.name))[j] := by
    rw [col_name, List.getD_eq_getElem _ _ hj, List.getElem_map]
  rw [e1, e2]
  exact hnames.getElem_inj_iff

/-- C1: every emitted correlation record pairs two distinct columns (pairs
with `i < j` only, each unordered pair at most once), carries the rounded
pairwise Pearson score with `|score| > 0.3`, and the list is sorted by
descending absolute score; with fewer than 2 numeric columns the result is
empty. -/
theorem claim_C1 (df : DF) (corr : ℕ → ℕ → ℚ) (hspec : corr_spec df corr)
    (hnames : (df.numCols.map (fun c => c.name)).Nodup) :
    (∀ r ∈ get_correlations df corr,
      (∃ i j, i < j ∧ j < df.numCols.length ∧
        r.feature1 = col_name df i ∧ r.feature2 = col_name df j ∧ r.score = corr i j ∧
        round2_of r.score
          (pearson (pair_obs (df.numCols.getD i default).vals
            (df.numCols.getD j default).vals))) ∧
      r.feature1 ≠ r.feature2 ∧ 3/10 < |r.score|) ∧
    (get_correlations df corr).Pairwise (fun a b =>
      ¬(a.feature1 = b.feature1 ∧ a.feature2 = b.feature2) ∧
      ¬(a.feature1 = b.feature2 ∧ a.feature2 = b.feature1)) ∧
    (get_correlations df corr).Pairwise (fun a b => |b.score| ≤ |a.score|) ∧
    (df.numCols.length < 2 → get_correlations df corr = []) := by
  by_cases hg : df.numCols.length < 2
  · simp only [get_correlations]
    rw [if_pos hg]
    exact ⟨by simp, List.Pairwise.nil, List.Pairwise.nil, fun _ => rfl⟩
  · simp only [get_correlations]
    rw [if_neg hg]
    refine ⟨?_, ?_, sortOnDesc_sorted _ _, fun h => absurd h hg⟩
    · intro r hr
      rw [mem_sortOnDesc, List.mem_filterMap] at hr
      obtain ⟨p, hp, hpr⟩ := hr
      rw [mem_pairs_upto] at hp
      have hjn : p.2 < df.numCols.length := hp.2
      have hin : p.1 < df.numCols.length := lt_trans hp.1 hp.2
      split at hpr
      next h310 =>
        obtain rfl := Option.some.inj hpr
        refine ⟨⟨p.1, p.2, hp.1, hp.2, rfl, rfl, rfl, hspec p.1 p.2 hin hjn⟩, ?_, h310⟩
        intro heq
        have := (col_name_inj df hnames hin hjn).mp heq
        omega
      next h => cases hpr
    · have hsym : ∀ {x y : CorrRec},
          (¬(x.feature1 = y.feature1 ∧ x.feature2 = y.feature2) ∧
           ¬(x.feature1 = y.feature2 ∧ x.feature2 = y.feature1)) →
          (¬(y.feature1 = x.feature1 ∧ y.feature2 = x.feature2) ∧
           ¬(y.feature1 = x.feature2 ∧ y.feature2 = x.feature1)) := by
        rintro x y ⟨h1, h2⟩
        exact ⟨fun hp => h1 ⟨hp.1.symm, hp.2.symm⟩, fun hp => h2 ⟨hp.2.symm, hp.1.symm⟩⟩
      rw [List.Perm.pairwise_iff hsym (sortOnDesc_perm _ _), List.pairwise_filterMap]
      refine List.Pairwise.imp_of_mem ?_ (pairs_upto_nodup df.numCols.length)
      intro p q hpm hqm hne b hb b' hb'
      rw [mem_pairs_upto] at hpm hqm
      split at hb
      next h1 =>
        split at hb'
        next h2 =>
          rw [Option.mem_def] at hb hb'
          obtain rfl := Option.some.inj hb
          obtain rfl := Option.some.inj hb'
          have hp1 : p.1 < df.numCols.length := lt_trans hpm.1 hpm.2
          have hq1 : q.1 < df.numCols.length := lt_trans hqm.1 hqm.2
          constructor
          · rintro ⟨e1, e2⟩
            exact hne (Prod.ext ((col_name_inj df hnames hp1 hq1).mp e1)
              ((col_name_inj df hnames hpm.2 hqm.2).mp e2))
          · rintro ⟨e1, e2⟩
            have ha := (col_name_inj df hnames hp1 hqm.2).mp e1
            have hb2 := (col_name_inj df hnames hpm.2 hq1).mp e2
            have hc1 := hpm.1
            have hc2 := hqm.1
            omega
        next h2 => cases hb'
      next h1 => cases hb

theorem pair_obs_dfW :
    pair_obs [some (1:ℚ), some 2, some 3] [some (1:ℚ), some 2, some 3] =
      [(1, 1), (2, 2), (3, 3)] := by
  norm_num [pair_obs, List.zip_cons_cons, List.filterMap_cons]

theorem pearson_triple : pearson [((1:ℚ), (1:ℚ)), (2, 2), (3, 3)] = 1 := by
  have h4 : Real.sqrt 4 = 2 := by
    rw [show (4:ℝ) = 2^2 by norm_num]
    exact Real.sqrt_sq (by norm_num)
  unfold pearson
  norm_num [mean, h4]

theorem corr_spec_dfW : corr_spec dfW corr1 := by
  intro i j hi hj
  have hi2 : i < 2 := hi
  have hj2 : j < 2 := hj
  have hv : ∀ k, k < 2 → (dfW.numCols.getD k default).vals =
      [some (1:ℚ), some 2, some 3] := by
    intro k hk
    interval_cases k <;> rfl
  show round2_of 1 (pearson (pair_obs _ _))
  rw [hv i hi2, hv j hj2, pair_obs_dfW, pearson_triple]
  exact ⟨⟨100, by norm_num⟩, by norm_num⟩

/-- Evaluation of the correlation analyzer on `dfW` with the constant
rounded correlation matrix `1`. -/
theorem get_correlations_dfW :
    get_correlations dfW corr1 = [⟨"x", "y", 1⟩] := by
  norm_num [get_correlations, pairs_upto, col_name, corr1, sortOnDesc, List.insertionSort,
    List.orderedInsert, dfW, List.filterMap_cons, List.flatMap_cons, List.flatMap_nil,
    List.range_succ, List.filter_cons]

/-- Witness for C1 at `dfW` with the exactly-correlated pair. -/
theorem claim_C1_witness :
    corr_spec dfW corr1 ∧ (dfW.numCols.map (fun c => c.name)).Nodup ∧
    (get_correlations dfW corr1).Pairwise (fun a b => |b.score| ≤ |a.score|) ∧
    ((⟨"x", "y", 1⟩ : CorrRec).feature1 ≠ (⟨"x", "y", 1⟩ : CorrRec).feature2 ∧
      3/10 < |(⟨"x", "y", 1⟩ : CorrRec).score|) := by
  have hn : (dfW.numCols.map (fun c => c.name)).Nodup := by decide
  refine ⟨corr_spec_dfW, hn, (claim_C1 dfW corr1 corr_spec_dfW hn).2.2.1,
    ((claim_C1 dfW corr1 corr_spec_dfW hn).1 ⟨"x", "y", 1⟩
      (by rw [get_correlations_dfW]; simp)).2⟩

end DataViz
